import Mathlib

/-!
Verification of the ThornOS virtual-memory core.

This file is a shallow embedding, in Lean 4, of the kernel's address
primitives (src/kernel/src/virt_addr.rs, paging.rs), page-table walker and
mapper (src/kernel/src/pagetable.rs, memory.rs), frame allocator and heap
bootstrap (src/kernel/src/allocator.rs) and process skeleton
(src/kernel/src/process.rs), together with theorems settling the spec
claims about them.

Modelling conventions:
- u64 machine words are Nat; where the source wraps (u64 addition) the
  embedding takes the result mod 2^64 explicitly.
- Physical memory holding page tables is a function from a frame start
  address to a table, a table being a function from slot index to the raw
  64-bit entry.  The table reached through the &self reference of
  PageTable::translate_addr / map_page is kept separate from that memory
  (TableRef.root), exactly as the reference is distinct from the
  offset-mapped loads in the source.
- A frame allocator (the FrameAllocator trait) is modelled as the stream
  (List Nat) of 4 KiB frame start addresses it will hand out; allocate on
  an empty stream is None.  BootInfoAllocator, whose behaviour claims C7
  addresses, is embedded concretely from its source.
- Rust panics and the read of the never-initialized local variable
  `frame` in PageTable::map_page_inner (the Some(Phys::Size4Kb _) branch
  executes `table = load_mut_table(frame)` before `frame` has ever been
  assigned, which rustc rejects with E0381) are explicit outcome
  constructors (.panicked, .undef) so that executions the source cannot
  define are never silently given a value.
-/

/-- Pointwise update of a function used to model writes to tables and to
table-holding memory. -/
def upd {α : Type} (f : Nat → α) (k : Nat) (v : α) : Nat → α :=
  fun n => if n = k then v else f n

/-- Iterator::nth on a list: the element at position n, if any. -/
def nth {α : Type} : List α → Nat → Option α
  | [], _ => none
  | a :: _, 0 => some a
  | _ :: l, n + 1 => nth l n

/-- Iterator::flat_map over a list. -/
def flatMapIter {α β : Type} (f : α → List β) : List α → List β
  | [] => []
  | a :: l => f a ++ flatMapIter f l

/-! ## Address primitives (virt_addr.rs, paging.rs) -/

/-- PageOffset::new_truncate applied to `addr as u16`:
VirtAddr::page_offset returns PageOffset::new_truncate(self.0 as u16),
and new_truncate is `offset % 4096`. -/
def page_offset (a : Nat) : Nat := (a % 65536) % 4096

/-- VirtAddr::page_table_index: `(self.0 >> (12 + level * 9)) as u16`
fed to PageTableIndex::new_truncate, which is `index % 512`. -/
def page_table_index (a : Nat) (level : Nat) : Nat :=
  ((a >>> (12 + level * 9)) % 65536) % 512

/-- VirtAddr::align_down: `self.0 & 0xFFFF_FFFF_FFFF_F000`. -/
def align_down (a : Nat) : Nat := a &&& 0xFFFFFFFFFFFFF000

/-- u64 addition as in `impl Add<u64> for VirtAddr` (wrapping at 2^64). -/
def virtAdd (a b : Nat) : Nat := (a + b) % 2 ^ 64

/-- Page::containing_address. -/
def page_containing_address (a : Nat) : Nat := align_down a

/-- `impl Add<u64> for Page`: Page::containing_address(self.0 + 4096 * rhs). -/
def pageAdd (p k : Nat) : Nat := page_containing_address ((p + 4096 * k) % 2 ^ 64)

/-- Iterator for PageRangeInclusive: yields `start` and advances to
`start + 1` while `start < end`; stops otherwise.  The source iterator is
a Rust loop; `fuel` bounds the number of emitted pages so the embedding is
total (every use below supplies fuel strictly larger than the number of
pages the iterator emits before stopping). -/
def pageRangeIter (fuel : Nat) (start stop : Nat) : List Nat :=
  match fuel with
  | 0 => []
  | fuel + 1 =>
    if start < stop then start :: pageRangeIter fuel (pageAdd start 1) stop
    else []

/-! ## Page-table entries (paging.rs) -/

/-- PageTableEntryFlags::PRESENT. -/
def PRESENT : Nat := 1
/-- PageTableEntryFlags::WRITABLE. -/
def WRITABLE : Nat := 2
/-- PageTableEntryFlags::HUGE_PAGE. -/
def HUGE_PAGE : Nat := 128

/-- flags().contains(f): all bits of f are set in the entry. -/
def hasFlag (e f : Nat) : Bool := e &&& f == f

/-- PageTableEntry::addr: `self.0 & 0x000F_FFFF_FFFF_F000`. -/
def pteAddr (e : Nat) : Nat := e &&& 0x000FFFFFFFFFF000

/-- PageTableEntry::new(frame, flags): `frame.start_address() | flags.bits`. -/
def pteNew (frameStart flags : Nat) : Nat := frameStart ||| flags

/-- Phys: a frame decoded from an entry, tagged with its size class and
carrying its start address (PhysFrame is represented by that address). -/
inductive Phys where
  | size4Kb (start : Nat)
  | size2Mb (start : Nat)
  | size1Gb (start : Nat)
  deriving DecidableEq, Repr

/-- Phys::start_address. -/
def Phys.startAddress : Phys → Nat
  | .size4Kb s => s
  | .size2Mb s => s
  | .size1Gb s => s

/-- PhysFrame::<Size4KiB>::containing_address: align down to 4096. -/
def frameContaining4Kb (a : Nat) : Nat := a - a % 4096
/-- PhysFrame::<Size2MiB>::containing_address: align down to 2 MiB. -/
def frameContaining2Mb (a : Nat) : Nat := a - a % 2097152
/-- PhysFrame::<Size1GiB>::containing_address: align down to 1 GiB. -/
def frameContaining1Gb (a : Nat) : Nat := a - a % 1073741824

/-- Result of PageTableEntry::frame: the entry is not present, decodes to
a frame, or the function panics ("huge page mapped at level .."). -/
inductive FrameResult where
  | panicked
  | missing
  | frame (p : Phys)
  deriving DecidableEq, Repr

/-- PageTableEntry::frame(level), exactly as in paging.rs: not PRESENT
gives no frame; with HUGE_PAGE set, level 1 decodes a 1 GiB frame and
level 2 a 2 MiB frame (this is the source's own assignment of sizes to
levels), any other level panics; otherwise a 4 KiB frame containing the
entry's address. -/
def pteFrame (e : Nat) (level : Nat) : FrameResult :=
  if ¬ hasFlag e PRESENT then .missing
  else if hasFlag e HUGE_PAGE then
    match level with
    | 1 => .frame (.size1Gb (frameContaining1Gb (pteAddr e)))
    | 2 => .frame (.size2Mb (frameContaining2Mb (pteAddr e)))
    | _ => .panicked
  else .frame (.size4Kb (frameContaining4Kb (pteAddr e)))

/-! ## Machine state for the walker and mapper -/

/-- The state PageTable::translate_addr and map_page operate on: the table
behind the &self reference, and the offset-mapped physical memory viewed
as page tables keyed by frame start address. -/
structure MachineState where
  root : Nat → Nat
  mem : Nat → Nat → Nat

/-- The value of the local `table` reference: the &self table or a table
loaded from memory at a frame start address. -/
inductive TableRef where
  | root
  | inMem (frameStart : Nat)
  deriving DecidableEq, Repr

/-- Reading table[index]. -/
def readEntry (st : MachineState) (t : TableRef) (i : Nat) : Nat :=
  match t with
  | .root => st.root i
  | .inMem a => st.mem a i

/-- Writing table[index] = v. -/
def writeEntry (st : MachineState) (t : TableRef) (i v : Nat) : MachineState :=
  match t with
  | .root => { st with root := upd st.root i v }
  | .inMem a => { st with mem := upd st.mem a (upd (st.mem a) i v) }

/-! ## PageTable::translate_addr (pagetable.rs) and memory::translate_addr -/

/-- Outcome of a translate walk: a panic inside PageTableEntry::frame, an
unmapped address (None), or a physical address. -/
inductive TransResult where
  | panicked
  | unmapped
  | mapped (pa : Nat)
  deriving DecidableEq, Repr

/-- One iteration of the translate loop in pagetable.rs lines 56-76 (the
same loop body as memory.rs translate_addr lines 25-42): read the entry at
this level's index, decode it; a missing entry ends the walk with None; a
2 MiB or 1 GiB frame breaks out and the function returns the frame's start
address plus the 12-bit page offset; a 4 KiB frame is followed (at level 0
it is the final frame, whose start plus the page offset is returned). -/
def translateFrom (st : MachineState) (a : Nat) : TableRef → Nat → TransResult
  | t, level =>
    match pteFrame (readEntry st t (page_table_index a level)) level with
    | .panicked => .panicked
    | .missing => .unmapped
    | .frame (.size2Mb s) => .mapped (s + page_offset a)
    | .frame (.size1Gb s) => .mapped (s + page_offset a)
    | .frame (.size4Kb s) =>
      match level with
      | 0 => .mapped (s + page_offset a)
      | l + 1 => translateFrom st a (.inMem s) l

/-- PageTable::translate_addr: the walk starting from the &self table at
level 3. -/
def translate_addr (st : MachineState) (a : Nat) : TransResult :=
  translateFrom st a .root 3

/-- memory::translate_addr: the same walk, but the root table is loaded
from memory at the frame CR3 holds (the state's root component is
unused). -/
def memTranslate_addr (mem : Nat → Nat → Nat) (cr3 a : Nat) : TransResult :=
  translateFrom ⟨fun _ => 0, mem⟩ a (.inMem cr3) 3

/-! ## PageTable::map_page (pagetable.rs) -/

/-- Outcome of PageTable::map_page: Ok, one of the PageMapError variants,
a panic inside PageTableEntry::frame, or the undefined read of the local
variable `frame` before its first assignment (rustc error E0381 on
pagetable.rs line 132). -/
inductive MapResult where
  | ok
  | errFrameAllocation
  | errPageAlreadyMapped
  | panicked
  | undef
  deriving DecidableEq, Repr

/-- The code after the walk loop of map_page_inner (pagetable.rs lines
157-165): if the leaf slot is PRESENT return PageAlreadyMapped, else
install new_entry and return Ok. -/
def mapFinish (a newEntry : Nat) (st : MachineState) (alloc : List Nat)
    (t : TableRef) : MapResult × MachineState × List Nat :=
  if hasFlag (readEntry st t (page_table_index a 0)) PRESENT then
    (.errPageAlreadyMapped, st, alloc)
  else
    (.ok, writeEntry st t (page_table_index a 0) newEntry, alloc)

/-- The walk loop of map_page_inner (pagetable.rs lines 113-155), one
constructor-level faithful step per level from 3 down to 0, followed by
mapFinish.  `fr` is the local variable `frame : Phys`, none while it has
never been assigned.  Branches:
- entry decodes to a 2 MiB / 1 GiB frame: re-read the slot, return
  PageAlreadyMapped if it is PRESENT, else install new_entry and return Ok;
- entry decodes to a 4 KiB frame f: `table = load_mut_table(frame)` (note:
  the old `frame`, not f — and reading `frame` before any assignment is
  the undefined E0381 read), then `frame = f`;
- entry missing at level ≠ 0: allocate a fresh frame, or return
  FrameAllocation if the allocator is exhausted; install
  PTE(fresh, PRESENT|WRITABLE) in this slot (the frame is NOT zeroed — the
  source has only a TODO), set `frame` to it and load its table;
- entry missing at level 0: nothing (the loop then ends). -/
def mapLoop (a newEntry : Nat) :
    MachineState → List Nat → TableRef → Option Phys → Nat →
      MapResult × MachineState × List Nat
  | st, alloc, t, fr, level =>
    match pteFrame (readEntry st t (page_table_index a level)) level with
    | .panicked => (.panicked, st, alloc)
    | .frame (.size2Mb _) =>
      if hasFlag (readEntry st t (page_table_index a level)) PRESENT then
        (.errPageAlreadyMapped, st, alloc)
      else
        (.ok, writeEntry st t (page_table_index a level) newEntry, alloc)
    | .frame (.size1Gb _) =>
      if hasFlag (readEntry st t (page_table_index a level)) PRESENT then
        (.errPageAlreadyMapped, st, alloc)
      else
        (.ok, writeEntry st t (page_table_index a level) newEntry, alloc)
    | .frame (.size4Kb f) =>
      match fr with
      | none => (.undef, st, alloc)
      | some oldFr =>
        let t' := TableRef.inMem oldFr.startAddress
        match level with
        | 0 => mapFinish a newEntry st alloc t'
        | l + 1 => mapLoop a newEntry st alloc t' (some (.size4Kb f)) l
    | .missing =>
      match level with
      | 0 => mapFinish a newEntry st alloc t
      | l + 1 =>
        match alloc with
        | [] => (.errFrameAllocation, st, alloc)
        | fNew :: rest =>
          let st' := writeEntry st t (page_table_index a (l + 1))
            (pteNew fNew (PRESENT ||| WRITABLE))
          mapLoop a newEntry st' rest (.inMem fNew) (some (.size4Kb fNew)) l

/-- PageTable::map_page on a page (its 4 KiB-aligned virtual address):
the walk starts at the &self table, level 3, with `frame` never yet
assigned. -/
def map_page (st : MachineState) (alloc : List Nat) (pageAddr newEntry : Nat) :
    MapResult × MachineState × List Nat :=
  mapLoop pageAddr newEntry st alloc .root none 3

/-! ## memory::create_mapping (memory.rs) -/

/-- Outcome of memory::create_mapping_inner: normal return, the panic
"allocation of new frame for page table level .. failed", or a panic
inside PageTableEntry::frame. -/
inductive CmResult where
  | done
  | panickedAlloc
  | panickedFrame
  deriving DecidableEq, Repr

/-- The loop of create_mapping_inner (memory.rs lines 67-103) followed by
the final `table[addr.page_table_index(0)] = entry` (line 105).  Unlike
map_page_inner, `frame` is initialized from CR3 and the table is re-loaded
from `frame` at the top of every iteration, so the walk is well defined.
On a 2 MiB / 1 GiB frame the existing entry (the shadowing `let entry`) is
written back into its own slot and the function returns; the caller's
entry is not installed.  A missing entry at an intermediate level
allocates a fresh (not zeroed) frame or panics when the allocator is
exhausted.  After the level-0 iteration the caller's entry is stored
through the table loaded at the top of that iteration. -/
def cmLoop (a entry : Nat) :
    (Nat → Nat → Nat) → List Nat → Nat → Nat → CmResult × (Nat → Nat → Nat) × List Nat
  | mem, alloc, fr, level =>
    match pteFrame (mem fr (page_table_index a level)) level with
    | .panicked => (.panickedFrame, mem, alloc)
    | .frame (.size2Mb _) =>
      (.done,
        upd mem fr
          (upd (mem fr) (page_table_index a level) (mem fr (page_table_index a level))),
        alloc)
    | .frame (.size1Gb _) =>
      (.done,
        upd mem fr
          (upd (mem fr) (page_table_index a level) (mem fr (page_table_index a level))),
        alloc)
    | .frame (.size4Kb f) =>
      match level with
      | 0 => (.done, upd mem fr (upd (mem fr) (page_table_index a 0) entry), alloc)
      | l + 1 => cmLoop a entry mem alloc f l
    | .missing =>
      match level with
      | 0 => (.done, upd mem fr (upd (mem fr) (page_table_index a 0) entry), alloc)
      | l + 1 =>
        match alloc with
        | [] => (.panickedAlloc, mem, alloc)
        | fNew :: rest =>
          let mem' := upd mem fr
            (upd (mem fr) (page_table_index a (l + 1)) (pteNew fNew (PRESENT ||| WRITABLE)))
          cmLoop a entry mem' rest fNew l

/-- memory::create_mapping: the walk starts from the table in the frame
CR3 holds, at level 3. -/
def create_mapping (mem : Nat → Nat → Nat) (alloc : List Nat) (cr3 a entry : Nat) :
    CmResult × (Nat → Nat → Nat) × List Nat :=
  cmLoop a entry mem alloc cr3 3

/-! ## Frame allocator (allocator.rs) -/

/-- A bootloader memory-map region: its byte range [start, stop) and
whether region_type == MemoryRegionType::Usable. -/
structure MemRegion where
  start : Nat
  stop : Nat
  usable : Bool
  deriving DecidableEq, Repr

/-- Range::step_by(4096) over [s, e): the addresses s, s + 4096, … below
e; there are ceil((e - s)/4096) of them. -/
def stepBy4096 (s e : Nat) : List Nat :=
  (List.range ((e - s + 4095) / 4096)).map (fun i => s + 4096 * i)

/-- BootInfoAllocator::usable_frames: filter the map's regions by Usable,
take each byte range, step by 4096 across all of them in order, and turn
each address into the 4 KiB frame containing it. -/
def usable_frames (memoryMap : List MemRegion) : List Nat :=
  ((flatMapIter (fun r => stepBy4096 r.1 r.2)
      ((memoryMap.filter (fun r => r.usable)).map (fun r => (r.start, r.stop)))).map
    frameContaining4Kb)

/-- BootInfoAllocator state: the memory map and the bump counter. -/
structure BootInfoAllocator where
  memory_map : List MemRegion
  next : Nat
  deriving DecidableEq, Repr

/-- BootInfoAllocator::allocate: the frame at position `next` of
usable_frames (Iterator::nth), and next is incremented. -/
def allocate (a : BootInfoAllocator) : Option Nat × BootInfoAllocator :=
  (nth (usable_frames a.memory_map) a.next, { a with next := a.next + 1 })

/-! ## Heap bootstrap (allocator.rs) -/

/-- HEAP_START. -/
def HEAP_START : Nat := 0x444444440000
/-- HEAP_SIZE: 100 * 1024. -/
def HEAP_SIZE : Nat := 100 * 1024

/-- The page range init_heap builds (allocator.rs lines 26-32): from the
page containing HEAP_START to the page containing
HEAP_START + (HEAP_SIZE - 1), iterated by the PageRangeInclusive iterator
(fuel 64 strictly exceeds the number of pages emitted before the iterator
stops). -/
def initHeapPages : List Nat :=
  pageRangeIter 64 (page_containing_address HEAP_START)
    (page_containing_address (virtAdd HEAP_START (HEAP_SIZE - 1)))

/-- Outcome of init_heap: Ok after handing (HEAP_START, HEAP_SIZE) to the
linked-list heap manager, Err(()) from a map_page error, the panic of
`.unwrap()` on an exhausted frame allocator, or a propagated panic /
undefined read from map_page. -/
inductive InitHeapResult where
  | okHeap (handStart handSize : Nat)
  | errHeap
  | panickedHeap
  | undefHeap
  deriving DecidableEq, Repr

/-- The loop of init_heap (allocator.rs lines 34-43) over a list of pages:
allocate a frame (unwrap panics when the allocator is exhausted), build
PTE(frame, PRESENT|WRITABLE), map the page through the active table, stop
with Err on a map error; after the loop the heap manager is initialized
with (HEAP_START, HEAP_SIZE). -/
def initHeapGo (st : MachineState) (alloc : List Nat) :
    List Nat → InitHeapResult × MachineState × List Nat
  | [] => (.okHeap HEAP_START HEAP_SIZE, st, alloc)
  | p :: ps =>
    match alloc with
    | [] => (.panickedHeap, st, alloc)
    | f :: rest =>
      match map_page st rest p (pteNew f (PRESENT ||| WRITABLE)) with
      | (.ok, st', alloc') => initHeapGo st' alloc' ps
      | (.errFrameAllocation, st', alloc') => (.errHeap, st', alloc')
      | (.errPageAlreadyMapped, st', alloc') => (.errHeap, st', alloc')
      | (.panicked, st', alloc') => (.panickedHeap, st', alloc')
      | (.undef, st', alloc') => (.undefHeap, st', alloc')

/-- init_heap: map every page initHeapPages yields, against the active
hierarchy st, consuming the frame allocator stream. -/
def init_heap (st : MachineState) (alloc : List Nat) :
    InitHeapResult × MachineState × List Nat :=
  initHeapGo st alloc initHeapPages

/-! ## Process skeleton (process.rs) -/

/-- Process states. -/
inductive PState where
  | available
  | ready
  | running
  | blocked
  | zombie
  deriving DecidableEq, Repr

/-- A process slot; the page table is a 512-entry table modelled as a
function from slot index to entry. -/
structure Process where
  state : PState
  exit_code : Int
  process_id : Nat
  pagetable : Nat → Nat

/-- Process::new: Available, exit code 0, pid 0, empty page table. -/
def Process.new : Process :=
  { state := .available, exit_code := 0, process_id := 0, pagetable := fun _ => 0 }

/-- allocate_process (process.rs lines 51-67): iterate over every slot of
the process list; each slot whose state is Available is set to Ready,
given the next pid and a fresh empty page table, and the pid counter is
incremented; other slots are skipped.  There is no break: the iteration
continues through the whole table. -/
def allocate_process : List Process → Nat → List Process × Nat
  | [], pid => ([], pid)
  | p :: ps, pid =>
    match p.state with
    | .available =>
      let p' := { p with state := .ready, process_id := pid, pagetable := fun _ => 0 }
      let (ps', pid') := allocate_process ps (pid + 1)
      (p' :: ps', pid')
    | _ =>
      let (ps', pid') := allocate_process ps pid
      (p :: ps', pid')

/-! ## Basic lemmas about the embedding -/

theorem upd_apply_same {α : Type} (f : Nat → α) (k : Nat) (v : α) : upd f k v k = v := by
  simp [upd]

theorem upd_apply_other {α : Type} (f : Nat → α) (k : Nat) (v : α) (n : Nat) (h : n ≠ k) :
    upd f k v n = f n := by
  simp [upd, h]

theorem upd_write_back {α : Type} (f : Nat → α) (k : Nat) : upd f k (f k) = f := by
  funext n
  by_cases h : n = k <;> simp [upd, h]

theorem pteFrame_not_present {e level : Nat} (h : hasFlag e PRESENT = false) :
    pteFrame e level = .missing := by
  simp [pteFrame, h]

theorem pteFrame_present {e level : Nat} {p : Phys} (h : pteFrame e level = .frame p) :
    hasFlag e PRESENT = true := by
  by_cases hp : hasFlag e PRESENT = true
  · exact hp
  · rw [pteFrame_not_present (by simpa using hp)] at h
    cases h

/-! ## Step lemmas for the map walk (pagetable.rs map_page_inner) -/

theorem mapLoop_missing_step (a ne : Nat) (st : MachineState) (fNew : Nat) (rest : List Nat)
    (t : TableRef) (fr : Option Phys) (l : Nat)
    (he : pteFrame (readEntry st t (page_table_index a (l + 1))) (l + 1) = .missing) :
    mapLoop a ne st (fNew :: rest) t fr (l + 1) =
      mapLoop a ne
        (writeEntry st t (page_table_index a (l + 1)) (pteNew fNew (PRESENT ||| WRITABLE)))
        rest (.inMem fNew) (some (.size4Kb fNew)) l := by
  cases fr <;> rw [mapLoop, he]

theorem mapLoop_missing_exhausted (a ne : Nat) (st : MachineState)
    (t : TableRef) (fr : Option Phys) (l : Nat)
    (he : pteFrame (readEntry st t (page_table_index a (l + 1))) (l + 1) = .missing) :
    mapLoop a ne st [] t fr (l + 1) = (.errFrameAllocation, st, []) := by
  cases fr <;> rw [mapLoop, he]

theorem mapLoop_missing_leaf (a ne : Nat) (st : MachineState) (alloc : List Nat)
    (t : TableRef) (fr : Option Phys)
    (he : pteFrame (readEntry st t (page_table_index a 0)) 0 = .missing) :
    mapLoop a ne st alloc t fr 0 = mapFinish a ne st alloc t := by
  cases fr <;> rw [mapLoop, he]

theorem mapLoop_4k_step (a ne : Nat) (st : MachineState) (alloc : List Nat)
    (t : TableRef) (oldFr : Phys) (f : Nat) (l : Nat)
    (he : pteFrame (readEntry st t (page_table_index a (l + 1))) (l + 1) = .frame (.size4Kb f)) :
    mapLoop a ne st alloc t (some oldFr) (l + 1) =
      mapLoop a ne st alloc (.inMem oldFr.startAddress) (some (.size4Kb f)) l := by
  cases alloc <;> rw [mapLoop, he]

theorem mapLoop_4k_undef (a ne : Nat) (st : MachineState) (alloc : List Nat)
    (t : TableRef) (f level : Nat)
    (he : pteFrame (readEntry st t (page_table_index a level)) level = .frame (.size4Kb f)) :
    mapLoop a ne st alloc t none level = (.undef, st, alloc) := by
  cases level <;> cases alloc <;> rw [mapLoop, he]

/-! ## Step lemmas for the translate walk -/

theorem translateFrom_missing (st : MachineState) (a : Nat) (t : TableRef) (level : Nat)
    (he : pteFrame (readEntry st t (page_table_index a level)) level = .missing) :
    translateFrom st a t level = .unmapped := by
  cases level <;> rw [translateFrom, he]

theorem translateFrom_4k_step (st : MachineState) (a : Nat) (t : TableRef) (s l : Nat)
    (he : pteFrame (readEntry st t (page_table_index a (l + 1))) (l + 1) = .frame (.size4Kb s)) :
    translateFrom st a t (l + 1) = translateFrom st a (.inMem s) l := by
  rw [translateFrom, he]

theorem translateFrom_4k_leaf (st : MachineState) (a : Nat) (t : TableRef) (s : Nat)
    (he : pteFrame (readEntry st t (page_table_index a 0)) 0 = .frame (.size4Kb s)) :
    translateFrom st a t 0 = .mapped (s + page_offset a) := by
  rw [translateFrom, he]

/-! ## Concrete states used to evaluate the code on explicit inputs -/

/-- A machine state whose root table and whole memory are zero-filled. -/
def zeroState : MachineState := ⟨fun _ => 0, fun _ _ => 0⟩

/-- State for claim C1: the root's slot 0 links (PRESENT|WRITABLE) to the
table in frame 0x1000, whose slot 0 is a PRESENT|HUGE_PAGE entry with
address bits 0x200000 — a 2 MiB huge mapping covering virtual addresses
0x0 .. 0x3FFFFF. -/
def c1State : MachineState :=
  ⟨upd (fun _ => 0) 0 0x1003,
   upd (fun _ _ => 0) 0x1000 (upd (fun _ => 0) 0 0x200083)⟩

/-- The same hierarchy for memory::translate_addr: the root table lives in
memory at the CR3 frame 0x9000. -/
def c1Mem : Nat → Nat → Nat :=
  upd (upd (fun _ _ => 0) 0x1000 (upd (fun _ => 0) 0 0x200083)) 0x9000
    (upd (fun _ => 0) 0 0x1003)

/-- State for claim C2's counterexample: the root table is zero, and the
frame 0x1000 the allocator will hand out first already holds (it is not
zeroed!) a PRESENT 4 KiB link to frame 0x3000 in its slot 0. -/
def c2State : MachineState :=
  ⟨fun _ => 0, upd (fun _ _ => 0) 0x1000 (upd (fun _ => 0) 0 0x3001)⟩

/-- State for claim C5: the frame 0x1000 the allocator will hand out first
holds the garbage entry 0xDEAD in its slot 5. -/
def c5State : MachineState :=
  ⟨fun _ => 0, upd (fun _ _ => 0) 0x1000 (upd (fun _ => 0) 5 0xDEAD)⟩

/-- The state after successfully mapping page 0 to frame 0x5000 in the
zero state with fresh frames 0x1000, 0x2000, 0x3000: the leaf slot for
page 0 is PRESENT afterwards. -/
def c6Mid : MachineState :=
  (map_page zeroState [0x1000, 0x2000, 0x3000] 0 (pteNew 0x5000 PRESENT)).2.1

/-- State for claim C9's counterexample: the root table is zero and the
frame 0x1000 the allocator will hand out holds a PRESENT|HUGE_PAGE entry
in its slot 0. -/
def c9State : MachineState :=
  ⟨fun _ => 0, upd (fun _ _ => 0) 0x1000 (upd (fun _ => 0) 0 0x83)⟩

/-- Memory for claim C10's counterexample: the root (CR3 = 0x9000) table
is zero; the fresh frame 0x1000 holds a PRESENT|HUGE_PAGE entry in slot
0. -/
def c10Mem : Nat → Nat → Nat :=
  upd (fun _ _ => 0) 0x1000 (upd (fun _ => 0) 0 0x83)

/-- Memory for claim C10's amended theorem witness: the root (CR3 =
0x9000) table links slot 0 to the table in frame 0x1000, which holds a
PRESENT|HUGE_PAGE (2 MiB at level 2) entry in slot 0. -/
def c10Mem2 : Nat → Nat → Nat :=
  upd (upd (fun _ _ => 0) 0x1000 (upd (fun _ => 0) 0 0x83)) 0x9000
    (upd (fun _ => 0) 0 0x1003)

/-- The frame allocator stream used for claim C4: sixty distinct 4 KiB
frames 0x1000, 0x2000, …. -/
def c4Alloc : List Nat := (List.range 60).map (fun k => 4096 * (k + 1))

/-! ## Claim C1 — huge-page translation offset -/

/-- Claim C1 (code_bug evidence).  In c1State the walk of virtual address
0x3000 reaches the huge entry at level 2, which decodes to the 2 MiB frame
starting at 0x200000; the claim demands the result
0x200000 + (0x3000 mod 2^21) = 0x203000 (the low 21 bits of the address
are the residual offset within the 2 MiB frame), but both translate paths
in the source return the frame start plus only the 12-bit page offset,
here 0x200000 + 0 = 0x200000. -/
theorem c1_translate_uses_page_offset_only :
    translate_addr c1State 0x3000 = .mapped 0x200000 ∧
    memTranslate_addr c1Mem 0x9000 0x3000 = .mapped 0x200000 ∧
    0x200000 + 0x3000 % 2 ^ 21 = 0x203000 ∧
    translate_addr c1State 0x3000 ≠ .mapped 0x203000 := by
  refine ⟨by decide, by decide, by decide, by decide⟩

/-! ## Claim C3 — PageTableEntry::frame level assignment -/

/-- Claim C3 (code_bug evidence).  For the entry 0x40200083
(PRESENT|WRITABLE|HUGE_PAGE with address bits 0x40200000) the source
decodes level 2 to a 2 MiB frame and level 1 to a 1 GiB frame — exactly
swapped relative to the claim (level 2 → 1 GiB, level 1 → 2 MiB); the
swap is material since the two decoded start addresses differ.  Levels 0
and 3 panic, and with PRESENT clear the result is none regardless of
level, as the claim states. -/
theorem c3_pteFrame_levels_swapped :
    pteFrame 0x40200083 2 = .frame (.size2Mb 0x40200000) ∧
    pteFrame 0x40200083 1 = .frame (.size1Gb 0x40000000) ∧
    pteFrame 0x40200083 0 = .panicked ∧
    pteFrame 0x40200083 3 = .panicked ∧
    pteFrame 0x40200082 1 = .missing ∧
    pteFrame 0x40200082 2 = .missing ∧
    (0x40200000 : Nat) ≠ 0x40000000 := by
  refine ⟨by decide, by decide, by decide, by decide, by decide, by decide, by decide⟩

/-! ## Claim C5 — fresh intermediate tables are not zeroed -/

/-- Claim C5 (code_bug evidence).  Mapping page 0 in c5State succeeds and
installs PTE(0x1000, PRESENT|WRITABLE) in the root slot, yet the garbage
entry 0xDEAD at slot 5 of the freshly allocated frame 0x1000 is still
there after the call: the fresh table was linked without being zeroed
(the source holds only a `TODO: Ensure memory is cleared`).  The second
half of the claim does hold: with an exhausted allocator map_page returns
the FrameAllocation error. -/
theorem c5_fresh_frame_not_zeroed :
    (map_page c5State [0x1000, 0x2000, 0x3000] 0 (pteNew 0x5000 PRESENT)).1 = .ok ∧
    ((map_page c5State [0x1000, 0x2000, 0x3000] 0 (pteNew 0x5000 PRESENT)).2.1).root 0 =
      pteNew 0x1000 (PRESENT ||| WRITABLE) ∧
    ((map_page c5State [0x1000, 0x2000, 0x3000] 0 (pteNew 0x5000 PRESENT)).2.1).mem 0x1000 5 =
      0xDEAD ∧
    (0xDEAD : Nat) ≠ 0 ∧
    (map_page c5State [] 0 (pteNew 0x5000 PRESENT)).1 = .errFrameAllocation := by
  refine ⟨by decide, by decide, by decide, by decide, by decide⟩

/-! ## Claim C6 — remapping an already-mapped page -/

/-- Claim C6 (code_bug evidence).  Mapping page 0 in the zero state
succeeds (the not-PRESENT leaf slot receives the new entry and the call
returns Ok, as the claim's second half states), but a second map_page of
the same page does not return PageAlreadyMapped: at level 3 the walk now
finds the PRESENT link and takes the branch that executes
`table = load_mut_table(frame)` before the local `frame` was ever
assigned — the undefined E0381 read. -/
theorem c6_remap_hits_uninitialized_read :
    (map_page zeroState [0x1000, 0x2000, 0x3000] 0 (pteNew 0x5000 PRESENT)).1 = .ok ∧
    hasFlag (c6Mid.mem 0x3000 0) PRESENT = true ∧
    (map_page c6Mid [0x4000] 0 (pteNew 0x6000 PRESENT)).1 = .undef ∧
    MapResult.undef ≠ MapResult.errPageAlreadyMapped := by
  refine ⟨by decide, by decide, by decide, by decide⟩

/-! ## Claim C4 — init_heap page range and mapping loop -/

/-- Claim C4 (code_bug evidence).  The heap page range init_heap iterates
holds 24 pages, HEAP_START + 4096·k for k < 24: the PageRangeInclusive
iterator is half-open, so the page 0x444444458000 containing the final
heap byte HEAP_START + HEAP_SIZE - 1 is never yielded (the claim demands
all 25 pages of the inclusive covering range).  Moreover, on a pristine
state with ample distinct fresh frames the mapping loop cannot complete:
the first page maps, but the second map_page call reaches the now-PRESENT
intermediate links and performs the undefined read of the uninitialized
`frame` variable. -/
theorem c4_init_heap_range_and_loop :
    initHeapPages.length = 24 ∧
    initHeapPages = (List.range 24).map (fun k => HEAP_START + 4096 * k) ∧
    (HEAP_START + HEAP_SIZE - 1) - (HEAP_START + HEAP_SIZE - 1) % 4096 =
      HEAP_START + 4096 * 24 ∧
    HEAP_START + 4096 * 24 ∉ initHeapPages ∧
    (init_heap zeroState c4Alloc).1 = .undefHeap := by
  refine ⟨by decide, by decide, by decide, by decide, by decide⟩

/-! ## Claim C2 — counterexample to map-then-translate over all states -/

/-- Claim C2 counterexample.  In c2State (root zero, but the first frame
the allocator yields already containing a stale PRESENT link), mapping
page 0 to frame 0x5000 with PRESENT returns Ok — yet translating address
0 + 0 afterwards returns None instead of Some(0x5000 + 0): map_page
walked through the stale link chain (lagging one table behind, since it
reloads `table` from the old `frame` variable) and installed the entry
where the translate walk never looks. -/
theorem c2_map_ok_translate_wrong :
    (map_page c2State [0x1000, 0x2000] 0 (pteNew 0x5000 PRESENT)).1 = .ok ∧
    translate_addr (map_page c2State [0x1000, 0x2000] 0 (pteNew 0x5000 PRESENT)).2.1
      (virtAdd 0 0) = .unmapped ∧
    TransResult.unmapped ≠ .mapped (0x5000 + 0) := by
  refine ⟨by decide, by decide, by decide⟩

/-! ## Claim C9 — counterexample to "returns Err without modifying any entry" -/

/-- Claim C9 counterexample.  In c9State the walk of map_page allocates a
fresh frame at level 3 and installs the link 0x1003 in root slot 0 before
meeting, at level 2, the huge entry in the fresh frame's garbage; the call
does return Err(PageAlreadyMapped), but the root entry was modified (0
before, 0x1003 after), refuting "without modifying any entry". -/
theorem c9_huge_err_after_modification :
    (map_page c9State [0x1000] 0 (pteNew 0x5000 PRESENT)).1 = .errPageAlreadyMapped ∧
    c9State.root 0 = 0 ∧
    ((map_page c9State [0x1000] 0 (pteNew 0x5000 PRESENT)).2.1).root 0 = 0x1003 := by
  refine ⟨by decide, by decide, by decide⟩

/-! ## Claim C10 — counterexample to "every page-table entry is unchanged" -/

/-- Claim C10 counterexample.  In c10Mem the walk of create_mapping
allocates a fresh frame at level 3 (writing the link 0x1003 into the root
table's slot 0) and then meets the huge entry in the fresh frame; the call
returns normally, but the root entry changed from 0 to 0x1003, refuting
"every page-table entry is unchanged". -/
theorem c10_huge_return_after_modification :
    (create_mapping c10Mem [0x1000] 0x9000 0 0x5001).1 = .done ∧
    c10Mem 0x9000 0 = 0 ∧
    (create_mapping c10Mem [0x1000] 0x9000 0 0x5001).2.1 0x9000 0 = 0x1003 := by
  refine ⟨by decide, by decide, by decide⟩

/-! ## Claim C9 amended — the huge branch itself: Err, nothing modified -/

/-- Claim C9 (amended).  Whenever the map walk, in any configuration
(state, table, frame variable, allocator, level), reads an entry that
decodes to a 2 MiB or 1 GiB huge frame, map_page_inner returns
Err(PageAlreadyMapped) with the state and allocator untouched from that
point on: decoding to a frame requires PRESENT, so the re-check of the
slot always succeeds and the branch that would install new_entry there
and return Ok is unreachable.  (Entries written by earlier iterations of
the walk — fresh intermediate links — are outside this configuration and
may already have changed, as the counterexample shows.) -/
theorem mapLoop_huge_err_unchanged (a ne : Nat) (st : MachineState)
    (alloc : List Nat) (t : TableRef) (fr : Option Phys) (level s : Nat)
    (h : pteFrame (readEntry st t (page_table_index a level)) level = .frame (.size2Mb s) ∨
         pteFrame (readEntry st t (page_table_index a level)) level = .frame (.size1Gb s)) :
    mapLoop a ne st alloc t fr level = (.errPageAlreadyMapped, st, alloc) := by
  rcases h with h | h <;> have hp := pteFrame_present h <;>
    cases fr <;> cases level <;> cases alloc <;> rw [mapLoop, h] <;> simp [hp]

/-- Witness for the amended claim C9: in c9State the table in frame
0x1000 holds, at the level-2 index of address 0, an entry decoding to the
2 MiB frame at 0, and the map step from that configuration returns
Err(PageAlreadyMapped) leaving state and allocator unchanged. -/
theorem mapLoop_huge_err_unchanged_witness :
    (pteFrame (readEntry c9State (.inMem 0x1000) (page_table_index 0 2)) 2 =
        .frame (.size2Mb 0) ∨
      pteFrame (readEntry c9State (.inMem 0x1000) (page_table_index 0 2)) 2 =
        .frame (.size1Gb 0)) ∧
    mapLoop 0 (pteNew 0x5000 PRESENT) c9State [] (.inMem 0x1000) none 2 =
      (.errPageAlreadyMapped, c9State, []) :=
  ⟨Or.inl (by decide),
   mapLoop_huge_err_unchanged 0 (pteNew 0x5000 PRESENT) c9State [] (.inMem 0x1000)
     none 2 0 (Or.inl (by decide))⟩

/-! ## Claim C10 amended — huge encounter on an already-present path -/

theorem cmLoop_4k_step (a e : Nat) (mem : Nat → Nat → Nat) (alloc : List Nat)
    (fr f l : Nat)
    (he : pteFrame (mem fr (page_table_index a (l + 1))) (l + 1) = .frame (.size4Kb f)) :
    cmLoop a e mem alloc fr (l + 1) = cmLoop a e mem alloc f l := by
  cases alloc <;> rw [cmLoop, he]

theorem cmLoop_huge_2mb (a e : Nat) (mem : Nat → Nat → Nat) (alloc : List Nat)
    (fr level s : Nat)
    (he : pteFrame (mem fr (page_table_index a level)) level = .frame (.size2Mb s)) :
    cmLoop a e mem alloc fr level = (.done, mem, alloc) := by
  cases alloc <;> cases level <;> rw [cmLoop, he] <;>
    rw [upd_write_back, upd_write_back]

theorem cmLoop_huge_1gb (a e : Nat) (mem : Nat → Nat → Nat) (alloc : List Nat)
    (fr level s : Nat)
    (he : pteFrame (mem fr (page_table_index a level)) level = .frame (.size1Gb s)) :
    cmLoop a e mem alloc fr level = (.done, mem, alloc) := by
  cases alloc <;> cases level <;> rw [cmLoop, he] <;>
    rw [upd_write_back, upd_write_back]

/-- Claim C10 (amended).  When the walk of memory::create_mapping reaches
a 2 MiB or 1 GiB huge entry through already-present 4 KiB links (the
level-3 entry links to a table t2 which either holds the huge entry at
level 2, or links to a table t1 holding it at level 1), the function
writes the existing entry back into its own slot and returns normally:
the memory is exactly unchanged, the caller's entry is never installed,
and no error or panic is signalled.  (When fresh tables had to be
allocated before the encounter, the installed links do persist — the
counterexample — which is why the present-path restriction is needed.) -/
theorem create_mapping_huge_present_path_unchanged (mem : Nat → Nat → Nat)
    (alloc : List Nat) (cr3 a entry t2 : Nat)
    (h3 : pteFrame (mem cr3 (page_table_index a 3)) 3 = .frame (.size4Kb t2))
    (hH : (∃ s, pteFrame (mem t2 (page_table_index a 2)) 2 = .frame (.size2Mb s)) ∨
          ∃ t1, pteFrame (mem t2 (page_table_index a 2)) 2 = .frame (.size4Kb t1) ∧
            ∃ s, pteFrame (mem t1 (page_table_index a 1)) 1 = .frame (.size1Gb s)) :
    create_mapping mem alloc cr3 a entry = (.done, mem, alloc) := by
  rcases hH with ⟨s, h2⟩ | ⟨t1, h2, s, h1⟩
  · show cmLoop a entry mem alloc cr3 (2 + 1) = (.done, mem, alloc)
    rw [cmLoop_4k_step a entry mem alloc cr3 t2 2 h3]
    exact cmLoop_huge_2mb a entry mem alloc t2 2 s h2
  · show cmLoop a entry mem alloc cr3 (2 + 1) = (.done, mem, alloc)
    rw [cmLoop_4k_step a entry mem alloc cr3 t2 2 h3]
    show cmLoop a entry mem alloc t2 (1 + 1) = (.done, mem, alloc)
    rw [cmLoop_4k_step a entry mem alloc t2 t1 1 h2]
    exact cmLoop_huge_1gb a entry mem alloc t1 1 s h1

/-- Witness for the amended claim C10: in c10Mem2 the root (CR3 0x9000)
slot for address 0 links to the table at 0x1000, which holds a 2 MiB huge
entry; create_mapping returns normally with the memory unchanged. -/
theorem create_mapping_huge_present_path_witness :
    pteFrame (c10Mem2 0x9000 (page_table_index 0 3)) 3 = .frame (.size4Kb 0x1000) ∧
    pteFrame (c10Mem2 0x1000 (page_table_index 0 2)) 2 = .frame (.size2Mb 0) ∧
    create_mapping c10Mem2 [] 0x9000 0 0x5001 = (.done, c10Mem2, []) :=
  ⟨by decide, by decide,
   create_mapping_huge_present_path_unchanged c10Mem2 [] 0x9000 0 0x5001 0x1000
     (by decide) (Or.inl ⟨0, by decide⟩)⟩

/-! ## Claim C8 — allocate_process -/

theorem nth_nil {α : Type} (n : Nat) : nth ([] : List α) n = none := by
  cases n <;> rfl

theorem nth_cons_zero {α : Type} (a : α) (l : List α) : nth (a :: l) 0 = some a := rfl

theorem nth_cons_succ {α : Type} (a : α) (l : List α) (n : Nat) :
    nth (a :: l) (n + 1) = nth l n := rfl

/-- The number of Available slots in a process list: how many slots a
single allocate_process call transitions (used to state the amended
claim C8). -/
def countAvail (l : List Process) : Nat :=
  (l.filter (fun p => p.state == PState.available)).length

/-- Claim C8 (amended).  allocate_process transitions EVERY Available
slot — not only the first — to Ready, assigning consecutive PIDs in slot
order (the slot preceded by k Available slots receives pid + k) and a
fresh empty page table, and leaves every non-Available slot unchanged;
the PID counter grows by the number of Available slots (not by one). -/
theorem allocate_process_every_available (l : List Process) (pid : Nat) :
    (allocate_process l pid).2 = pid + countAvail l ∧
    (allocate_process l pid).1.length = l.length ∧
    ∀ i, nth (allocate_process l pid).1 i = (nth l i).map (fun p =>
      if p.state = PState.available then
        { p with
          state := .ready,
          process_id := pid + countAvail (l.take i),
          pagetable := fun _ => 0 }
      else p) := by
  induction l generalizing pid with
  | nil =>
    refine ⟨by simp [allocate_process, countAvail], rfl, ?_⟩
    intro i
    simp [allocate_process, nth_nil]
  | cons p ps IH =>
    cases hps : p.state with
    | available =>
      obtain ⟨IH1, IH2, IH3⟩ := IH (pid + 1)
      have hcnt : countAvail (p :: ps) = countAvail ps + 1 := by
        simp [countAvail, hps]
      refine ⟨?_, ?_, ?_⟩
      · simp only [allocate_process, hps, hcnt, IH1]
        omega
      · simp only [allocate_process, hps, List.length_cons, IH2]
      · intro i
        cases i with
        | zero =>
          simp only [allocate_process, hps, nth_cons_zero, Option.map_some',
            List.take_zero]
          simp [countAvail]
        | succ i =>
          simp only [allocate_process, hps, nth_cons_succ, IH3 i, List.take_succ_cons]
          cases hq : nth ps i with
          | none => rfl
          | some q =>
            simp only [Option.map_some']
            by_cases hqa : q.state = PState.available
            · have : countAvail (p :: ps.take i) = countAvail (ps.take i) + 1 := by
                simp [countAvail, hps]
              rw [if_pos hqa, if_pos hqa, this]
              have harith : pid + 1 + countAvail (ps.take i) =
                  pid + (countAvail (ps.take i) + 1) := by omega
              rw [harith]
            · rw [if_neg hqa, if_neg hqa]
    | ready =>
      obtain ⟨IH1, IH2, IH3⟩ := IH pid
      have hcnt : countAvail (p :: ps) = countAvail ps := by
        simp [countAvail, hps]
      have hne : ¬ p.state = PState.available := by simp [hps]
      refine ⟨by simp only [allocate_process, hps, hcnt, IH1], by
        simp only [allocate_process, hps, List.length_cons, IH2], ?_⟩
      intro i
      cases i with
      | zero =>
        simp [allocate_process, hps, nth_cons_zero, Option.map_some']
      | succ i =>
        simp only [allocate_process, hps, nth_cons_succ, IH3 i, List.take_succ_cons]
        cases hq : nth ps i with
        | none => rfl
        | some q =>
          simp only [Option.map_some']
          have : countAvail (p :: ps.take i) = countAvail (ps.take i) := by
            simp [countAvail, hps]
          rw [this]
    | running =>
      obtain ⟨IH1, IH2, IH3⟩ := IH pid
      have hcnt : countAvail (p :: ps) = countAvail ps := by
        simp [countAvail, hps]
      have hne : ¬ p.state = PState.available := by simp [hps]
      refine ⟨by simp only [allocate_process, hps, hcnt, IH1], by
        simp only [allocate_process, hps, List.length_cons, IH2], ?_⟩
      intro i
      cases i with
      | zero =>
        simp [allocate_process, hps, nth_cons_zero, Option.map_some']
      | succ i =>
        simp only [allocate_process, hps, nth_cons_succ, IH3 i, List.take_succ_cons]
        cases hq : nth ps i with
        | none => rfl
        | some q =>
          simp only [Option.map_some']
          have : countAvail (p :: ps.take i) = countAvail (ps.take i) := by
            simp [countAvail, hps]
          rw [this]
    | blocked =>
      obtain ⟨IH1, IH2, IH3⟩ := IH pid
      have hcnt : countAvail (p :: ps) = countAvail ps := by
        simp [countAvail, hps]
      have hne : ¬ p.state = PState.available := by simp [hps]
      refine ⟨by simp only [allocate_process, hps, hcnt, IH1], by
        simp only [allocate_process, hps, List.length_cons, IH2], ?_⟩
      intro i
      cases i with
      | zero =>
        simp [allocate_process, hps, nth_cons_zero, Option.map_some']
      | succ i =>
        simp only [allocate_process, hps, nth_cons_succ, IH3 i, List.take_succ_cons]
        cases hq : nth ps i with
        | none => rfl
        | some q =>
          simp only [Option.map_some']
          have : countAvail (p :: ps.take i) = countAvail (ps.take i) := by
            simp [countAvail, hps]
          rw [this]
    | zombie =>
      obtain ⟨IH1, IH2, IH3⟩ := IH pid
      have hcnt : countAvail (p :: ps) = countAvail ps := by
        simp [countAvail, hps]
      have hne : ¬ p.state = PState.available := by simp [hps]
      refine ⟨by simp only [allocate_process, hps, hcnt, IH1], by
        simp only [allocate_process, hps, List.length_cons, IH2], ?_⟩
      intro i
      cases i with
      | zero =>
        simp [allocate_process, hps, nth_cons_zero, Option.map_some']
      | succ i =>
        simp only [allocate_process, hps, nth_cons_succ, IH3 i, List.take_succ_cons]
        cases hq : nth ps i with
        | none => rfl
        | some q =>
          simp only [Option.map_some']
          have : countAvail (p :: ps.take i) = countAvail (ps.take i) := by
            simp [countAvail, hps]
          rw [this]

/-- Claim C8 counterexample.  On the initial process table (NPROC = 2,
both slots Available) a single allocate_process call transitions BOTH
slots to Ready with PIDs 0 and 1 and advances the PID counter to 2 — the
claim demands that exactly the first Available slot change, the later
Available slot stay Available and the counter grow by one. -/
theorem c8_allocate_process_takes_every_slot :
    (allocate_process [Process.new, Process.new] 0).2 = 2 ∧
    (allocate_process [Process.new, Process.new] 0).1.map (fun p => p.state) =
      [.ready, .ready] ∧
    (allocate_process [Process.new, Process.new] 0).1.map (fun p => p.process_id) =
      [0, 1] ∧
    (2 : Nat) ≠ 0 + 1 ∧ PState.ready ≠ PState.available := by
  refine ⟨by decide, ?_, ?_, by decide, by decide⟩
  · rfl
  · rfl

/-! ## Claim C7 — BootInfoAllocator -/

theorem nth_eq_none_of_length_le {α : Type} :
    ∀ (l : List α) (n : Nat), l.length ≤ n → nth l n = none := by
  intro l
  induction l with
  | nil => intro n _; exact nth_nil n
  | cons a l IH =>
    intro n h
    cases n with
    | zero => simp at h
    | succ n => exact IH n (by simpa using h)

theorem nth_mem {α : Type} :
    ∀ (l : List α) (n : Nat) (x : α), nth l n = some x → x ∈ l := by
  intro l
  induction l with
  | nil => intro n x h; rw [nth_nil] at h; cases h
  | cons a l IH =>
    intro n x h
    cases n with
    | zero => rw [nth_cons_zero] at h; cases h; exact List.mem_cons_self a l
    | succ n => exact List.mem_cons_of_mem a (IH n x h)

theorem nodup_nth_inj {α : Type} :
    ∀ (l : List α), l.Nodup → ∀ i j x, nth l i = some x → nth l j = some x → i = j := by
  intro l
  induction l with
  | nil => intro _ i j x hi; rw [nth_nil] at hi; cases hi
  | cons a l IH =>
    intro hnd i j x hi hj
    rw [List.nodup_cons] at hnd
    cases i with
    | zero =>
      cases j with
      | zero => rfl
      | succ j =>
        rw [nth_cons_zero] at hi
        cases hi
        exact absurd (nth_mem l j a hj) hnd.1
    | succ i =>
      cases j with
      | zero =>
        rw [nth_cons_zero] at hj
        cases hj
        exact absurd (nth_mem l i a hi) hnd.1
      | succ j =>
        rw [IH hnd.2 i j x hi hj]

theorem mem_stepBy4096 {s e x : Nat} (h : x ∈ stepBy4096 s e) : s ≤ x ∧ x < e := by
  simp only [stepBy4096, List.mem_map, List.mem_range] at h
  obtain ⟨i, hi, rfl⟩ := h
  have hub := Nat.div_mul_le_self (e - s + 4095) 4096
  have h2 : (i + 1) * 4096 ≤ ((e - s + 4095) / 4096) * 4096 :=
    Nat.mul_le_mul_right _ hi
  omega

theorem nodup_stepBy4096 (s e : Nat) : (stepBy4096 s e).Nodup :=
  List.Nodup.map (fun i j h => by omega) (List.nodup_range _)

theorem stepBy4096_aligned {s e x : Nat} (hs : s % 4096 = 0) (h : x ∈ stepBy4096 s e) :
    x % 4096 = 0 := by
  simp only [stepBy4096, List.mem_map, List.mem_range] at h
  obtain ⟨i, _, rfl⟩ := h
  omega

theorem frameContaining4Kb_of_aligned {x : Nat} (h : x % 4096 = 0) :
    frameContaining4Kb x = x := by
  unfold frameContaining4Kb
  omega

theorem mem_flatMapIter {α β : Type} (f : α → List β) :
    ∀ (l : List α) (x : β), x ∈ flatMapIter f l ↔ ∃ a ∈ l, x ∈ f a := by
  intro l x
  induction l with
  | nil => simp [flatMapIter]
  | cons a l IH =>
    simp only [flatMapIter, List.mem_append, IH, List.mem_cons]
    constructor
    · rintro (h | ⟨b, hb, hx⟩)
      · exact ⟨a, Or.inl rfl, h⟩
      · exact ⟨b, Or.inr hb, hx⟩
    · rintro ⟨b, hb | hb, hx⟩
      · subst hb; exact Or.inl hx
      · exact Or.inr ⟨b, hb, hx⟩

theorem nodup_flat_pairs :
    ∀ (rs : List (Nat × Nat)),
      rs.Pairwise (fun r1 r2 => r1.2 ≤ r2.1 ∨ r2.2 ≤ r1.1) →
      (flatMapIter (fun r => stepBy4096 r.1 r.2) rs).Nodup := by
  intro rs
  induction rs with
  | nil => intro _; exact List.nodup_nil
  | cons r rs IH =>
    intro hp
    rw [List.pairwise_cons] at hp
    obtain ⟨hdis, hrest⟩ := hp
    show (stepBy4096 r.1 r.2 ++ flatMapIter (fun r => stepBy4096 r.1 r.2) rs).Nodup
    refine List.Nodup.append (nodup_stepBy4096 _ _) (IH hrest) ?_
    intro x hx hx'
    obtain ⟨hs1, hs2⟩ := mem_stepBy4096 hx
    rw [mem_flatMapIter] at hx'
    obtain ⟨r', hr', hxr⟩ := hx'
    obtain ⟨ht1, ht2⟩ := mem_stepBy4096 hxr
    rcases hdis r' hr' with h | h <;> omega

theorem usable_frames_nodup (m : List MemRegion)
    (hdis : (m.filter (fun r => r.usable)).Pairwise
      (fun r1 r2 => r1.stop ≤ r2.start ∨ r2.stop ≤ r1.start))
    (hal : ∀ r ∈ m.filter (fun r => r.usable), r.start % 4096 = 0) :
    (usable_frames m).Nodup := by
  unfold usable_frames
  have hp : ((m.filter (fun r => r.usable)).map (fun r => (r.start, r.stop))).Pairwise
      (fun r1 r2 => r1.2 ≤ r2.1 ∨ r2.2 ≤ r1.1) :=
    List.Pairwise.map _ (fun a b hab => hab) hdis
  have hflat := nodup_flat_pairs _ hp
  have hid : ∀ x ∈ flatMapIter (fun r => stepBy4096 r.1 r.2)
      ((m.filter (fun r => r.usable)).map (fun r => (r.start, r.stop))),
      frameContaining4Kb x = x := by
    intro x hx
    rw [mem_flatMapIter] at hx
    obtain ⟨⟨s, e⟩, hr, hxr⟩ := hx
    simp only [List.mem_map] at hr
    obtain ⟨reg, hreg, heq⟩ := hr
    cases heq
    exact frameContaining4Kb_of_aligned (stepBy4096_aligned (hal reg hreg) hxr)
  rw [List.map_congr_left hid]
  simpa using hflat

/-- Claim C7.  For a memory map whose USABLE regions are pairwise disjoint
and whose region starts are 4 KiB-aligned: allocate's successor state is
the same map with next incremented by one; the frame returned for a given
next value is exactly position next of the usable-frame sequence (so the
same next always denotes the same frame — the allocator is a deterministic
function of map and counter); any two successful calls at distinct next
values return distinct frames; and once next reaches the length of the
flattened frame sequence, allocate returns none. -/
theorem allocate_bump_deterministic_distinct (m : List MemRegion)
    (hdis : (m.filter (fun r => r.usable)).Pairwise
      (fun r1 r2 => r1.stop ≤ r2.start ∨ r2.stop ≤ r1.start))
    (hal : ∀ r ∈ m.filter (fun r => r.usable), r.start % 4096 = 0) :
    (∀ n, (allocate ⟨m, n⟩).2 = ⟨m, n + 1⟩) ∧
    (∀ n, (allocate ⟨m, n⟩).1 = nth (usable_frames m) n) ∧
    (∀ n1 n2 f1 f2, n1 ≠ n2 → (allocate ⟨m, n1⟩).1 = some f1 →
      (allocate ⟨m, n2⟩).1 = some f2 → f1 ≠ f2) ∧
    (∀ n, (usable_frames m).length ≤ n → (allocate ⟨m, n⟩).1 = none) := by
  have hnd := usable_frames_nodup m hdis hal
  refine ⟨fun n => rfl, fun n => rfl, ?_, fun n h => nth_eq_none_of_length_le _ _ h⟩
  intro n1 n2 f1 f2 hne h1 h2 heq
  subst heq
  exact hne (nodup_nth_inj _ hnd n1 n2 f1 h1 h2)

/-- A concrete memory map: two usable, disjoint, 4 KiB-aligned regions
and one non-usable region between them. -/
def c7Map : List MemRegion :=
  [⟨0x1000, 0x3000, true⟩, ⟨0x8000, 0x8000, false⟩, ⟨0x5000, 0x6000, true⟩]

/-- Witness for claim C7: the concrete map c7Map satisfies both
hypotheses and therefore enjoys the allocator guarantees. -/
theorem allocate_bump_witness :
    (c7Map.filter (fun r => r.usable)).Pairwise
      (fun r1 r2 => r1.stop ≤ r2.start ∨ r2.stop ≤ r1.start) ∧
    (∀ r ∈ c7Map.filter (fun r => r.usable), r.start % 4096 = 0) ∧
    ((∀ n, (allocate ⟨c7Map, n⟩).2 = ⟨c7Map, n + 1⟩) ∧
      (∀ n, (allocate ⟨c7Map, n⟩).1 = nth (usable_frames c7Map) n) ∧
      (∀ n1 n2 f1 f2, n1 ≠ n2 → (allocate ⟨c7Map, n1⟩).1 = some f1 →
        (allocate ⟨c7Map, n2⟩).1 = some f2 → f1 ≠ f2) ∧
      (∀ n, (usable_frames c7Map).length ≤ n → (allocate ⟨c7Map, n⟩).1 = none)) :=
  ⟨by decide, by decide,
   allocate_bump_deterministic_distinct c7Map (by decide) (by decide)⟩

/-! ## Claim C2 amended — map then translate from a fresh path -/

theorem virtAdd_small {a d : Nat} (ha : a % 4096 = 0) (ha64 : a < 2 ^ 64) (hd : d < 4096) :
    virtAdd a d = a + d := by
  unfold virtAdd
  have h64 : (2 : Nat) ^ 64 = 18446744073709551616 := by norm_num
  apply Nat.mod_eq_of_lt
  omega

theorem page_table_index_add {a d : Nat} (ha : a % 4096 = 0) (hd : d < 4096) (L : Nat) :
    page_table_index (a + d) L = page_table_index a L := by
  unfold page_table_index
  have hdiv : (a + d) >>> (12 + L * 9) = a >>> (12 + L * 9) := by
    rw [Nat.shiftRight_eq_div_pow, Nat.shiftRight_eq_div_pow]
    have hsplit : (2 : Nat) ^ (12 + L * 9) = 4096 * 2 ^ (L * 9) := by
      rw [pow_add]; norm_num
    rw [hsplit, ← Nat.div_div_eq_div_mul, ← Nat.div_div_eq_div_mul]
    congr 1
    omega
  rw [hdiv]

theorem page_offset_add {a d : Nat} (ha : a % 4096 = 0) (hd : d < 4096) :
    page_offset (a + d) = d := by
  unfold page_offset
  omega

/-- Claim C2 (amended).  Mapping then translating holds on the fresh-walk
path the claim envisages: if the root slot for page P is not present, the
allocator's next three frames f1, f2, f3 are pairwise distinct and their
tables zero-filled, and the page-table entries built from f1, f2, f3 and
the target frame f decode back to those frames (as they do for 4 KiB-
aligned frame addresses below 2^52), then map_page(P, PTE(f, PRESENT))
returns Ok and afterwards translate_addr(P + δ) = Some(f.start + δ) for
every δ < 4096.  Without these freshness hypotheses the claim fails — see
the counterexample, where stale garbage in an allocated frame makes
map_page return Ok while installing the entry where translate never
looks. -/
theorem map_page_fresh_then_translate
    (st : MachineState) (rest : List Nat) (a f f1 f2 f3 d : Nat)
    (ha : a % 4096 = 0) (ha64 : a < 2 ^ 64) (hd : d < 4096)
    (hroot : hasFlag (st.root (page_table_index a 3)) PRESENT = false)
    (hz1 : ∀ j, st.mem f1 j = 0) (hz2 : ∀ j, st.mem f2 j = 0) (hz3 : ∀ j, st.mem f3 j = 0)
    (h12 : f1 ≠ f2) (h13 : f1 ≠ f3) (h23 : f2 ≠ f3)
    (hd3 : pteFrame (pteNew f1 (PRESENT ||| WRITABLE)) 3 = .frame (.size4Kb f1))
    (hd2 : pteFrame (pteNew f2 (PRESENT ||| WRITABLE)) 2 = .frame (.size4Kb f2))
    (hd1 : pteFrame (pteNew f3 (PRESENT ||| WRITABLE)) 1 = .frame (.size4Kb f3))
    (hd0 : pteFrame (pteNew f PRESENT) 0 = .frame (.size4Kb f)) :
    (map_page st (f1 :: f2 :: f3 :: rest) a (pteNew f PRESENT)).1 = .ok ∧
    translate_addr (map_page st (f1 :: f2 :: f3 :: rest) a (pteNew f PRESENT)).2.1
      (virtAdd a d) = .mapped (f + d) := by
  have e3 : pteFrame (readEntry st TableRef.root (page_table_index a 3)) 3 =
      FrameResult.missing := pteFrame_not_present hroot
  have r2 : readEntry
      (writeEntry st .root (page_table_index a 3) (pteNew f1 (PRESENT ||| WRITABLE)))
      (.inMem f1) (page_table_index a 2) = 0 := by
    simp [readEntry, writeEntry, hz1]
  have e2 : pteFrame (readEntry
      (writeEntry st .root (page_table_index a 3) (pteNew f1 (PRESENT ||| WRITABLE)))
      (.inMem f1) (page_table_index a 2)) 2 = FrameResult.missing := by
    rw [r2]; exact pteFrame_not_present (by decide)
  have r1 : readEntry
      (writeEntry
        (writeEntry st .root (page_table_index a 3) (pteNew f1 (PRESENT ||| WRITABLE)))
        (.inMem f1) (page_table_index a 2) (pteNew f2 (PRESENT ||| WRITABLE)))
      (.inMem f2) (page_table_index a 1) = 0 := by
    simp [readEntry, writeEntry, upd, Ne.symm h12, hz2]
  have e1 : pteFrame (readEntry
      (writeEntry
        (writeEntry st .root (page_table_index a 3) (pteNew f1 (PRESENT ||| WRITABLE)))
        (.inMem f1) (page_table_index a 2) (pteNew f2 (PRESENT ||| WRITABLE)))
      (.inMem f2) (page_table_index a 1)) 1 = FrameResult.missing := by
    rw [r1]; exact pteFrame_not_present (by decide)
  have r0 : readEntry
      (writeEntry
        (writeEntry
          (writeEntry st .root (page_table_index a 3) (pteNew f1 (PRESENT ||| WRITABLE)))
          (.inMem f1) (page_table_index a 2) (pteNew f2 (PRESENT ||| WRITABLE)))
        (.inMem f2) (page_table_index a 1) (pteNew f3 (PRESENT ||| WRITABLE)))
      (.inMem f3) (page_table_index a 0) = 0 := by
    simp [readEntry, writeEntry, upd, Ne.symm h13, Ne.symm h23, hz3]
  have e0 : pteFrame (readEntry
      (writeEntry
        (writeEntry
          (writeEntry st .root (page_table_index a 3) (pteNew f1 (PRESENT ||| WRITABLE)))
          (.inMem f1) (page_table_index a 2) (pteNew f2 (PRESENT ||| WRITABLE)))
        (.inMem f2) (page_table_index a 1) (pteNew f3 (PRESENT ||| WRITABLE)))
      (.inMem f3) (page_table_index a 0)) 0 = FrameResult.missing := by
    rw [r0]; exact pteFrame_not_present (by decide)
  have hfin : mapFinish a (pteNew f PRESENT)
      (writeEntry
        (writeEntry
          (writeEntry st .root (page_table_index a 3) (pteNew f1 (PRESENT ||| WRITABLE)))
          (.inMem f1) (page_table_index a 2) (pteNew f2 (PRESENT ||| WRITABLE)))
        (.inMem f2) (page_table_index a 1) (pteNew f3 (PRESENT ||| WRITABLE)))
      rest (.inMem f3) =
      (.ok,
        writeEntry
          (writeEntry
            (writeEntry
              (writeEntry st .root (page_table_index a 3) (pteNew f1 (PRESENT ||| WRITABLE)))
              (.inMem f1) (page_table_index a 2) (pteNew f2 (PRESENT ||| WRITABLE)))
            (.inMem f2) (page_table_index a 1) (pteNew f3 (PRESENT ||| WRITABLE)))
          (.inMem f3) (page_table_index a 0) (pteNew f PRESENT),
        rest) := by
    unfold mapFinish
    rw [r0]
    have h0 : hasFlag 0 PRESENT = false := by decide
    rw [h0]
    simp
  have hm : map_page st (f1 :: f2 :: f3 :: rest) a (pteNew f PRESENT) =
      (.ok,
        writeEntry
          (writeEntry
            (writeEntry
              (writeEntry st .root (page_table_index a 3) (pteNew f1 (PRESENT ||| WRITABLE)))
              (.inMem f1) (page_table_index a 2) (pteNew f2 (PRESENT ||| WRITABLE)))
            (.inMem f2) (page_table_index a 1) (pteNew f3 (PRESENT ||| WRITABLE)))
          (.inMem f3) (page_table_index a 0) (pteNew f PRESENT),
        rest) :=
    (mapLoop_missing_step a (pteNew f PRESENT) st f1 (f2 :: f3 :: rest) .root none 2 e3).trans
      ((mapLoop_missing_step a (pteNew f PRESENT) _ f2 (f3 :: rest) (.inMem f1)
          (some (.size4Kb f1)) 1 e2).trans
        ((mapLoop_missing_step a (pteNew f PRESENT) _ f3 rest (.inMem f2)
            (some (.size4Kb f2)) 0 e1).trans
          ((mapLoop_missing_leaf a (pteNew f PRESENT) _ rest (.inMem f3)
              (some (.size4Kb f3)) e0).trans hfin)))
  refine ⟨by rw [hm], ?_⟩
  rw [hm, virtAdd_small ha ha64 hd]
  have t3 : pteFrame (readEntry
      (writeEntry
        (writeEntry
          (writeEntry
            (writeEntry st .root (page_table_index a 3) (pteNew f1 (PRESENT ||| WRITABLE)))
            (.inMem f1) (page_table_index a 2) (pteNew f2 (PRESENT ||| WRITABLE)))
          (.inMem f2) (page_table_index a 1) (pteNew f3 (PRESENT ||| WRITABLE)))
        (.inMem f3) (page_table_index a 0) (pteNew f PRESENT))
      TableRef.root (page_table_index (a + d) 3)) 3 = .frame (.size4Kb f1) := by
    have : readEntry
        (writeEntry
          (writeEntry
            (writeEntry
              (writeEntry st .root (page_table_index a 3) (pteNew f1 (PRESENT ||| WRITABLE)))
              (.inMem f1) (page_table_index a 2) (pteNew f2 (PRESENT ||| WRITABLE)))
            (.inMem f2) (page_table_index a 1) (pteNew f3 (PRESENT ||| WRITABLE)))
          (.inMem f3) (page_table_index a 0) (pteNew f PRESENT))
        TableRef.root (page_table_index (a + d) 3) = pteNew f1 (PRESENT ||| WRITABLE) := by
      simp [readEntry, writeEntry, upd, page_table_index_add ha hd]
    rw [this]; exact hd3
  have t2 : pteFrame (readEntry
      (writeEntry
        (writeEntry
          (writeEntry
            (writeEntry st .root (page_table_index a 3) (pteNew f1 (PRESENT ||| WRITABLE)))
            (.inMem f1) (page_table_index a 2) (pteNew f2 (PRESENT ||| WRITABLE)))
          (.inMem f2) (page_table_index a 1) (pteNew f3 (PRESENT ||| WRITABLE)))
        (.inMem f3) (page_table_index a 0) (pteNew f PRESENT))
      (.inMem f1) (page_table_index (a + d) 2)) 2 = .frame (.size4Kb f2) := by
    have : readEntry
        (writeEntry
          (writeEntry
            (writeEntry
              (writeEntry st .root (page_table_index a 3) (pteNew f1 (PRESENT ||| WRITABLE)))
              (.inMem f1) (page_table_index a 2) (pteNew f2 (PRESENT ||| WRITABLE)))
            (.inMem f2) (page_table_index a 1) (pteNew f3 (PRESENT ||| WRITABLE)))
          (.inMem f3) (page_table_index a 0) (pteNew f PRESENT))
        (.inMem f1) (page_table_index (a + d) 2) = pteNew f2 (PRESENT ||| WRITABLE) := by
      simp [readEntry, writeEntry, upd, page_table_index_add ha hd, h12, h13]
    rw [this]; exact hd2
  have t1 : pteFrame (readEntry
      (writeEntry
        (writeEntry
          (writeEntry
            (writeEntry st .root (page_table_index a 3) (pteNew f1 (PRESENT ||| WRITABLE)))
            (.inMem f1) (page_table_index a 2) (pteNew f2 (PRESENT ||| WRITABLE)))
          (.inMem f2) (page_table_index a 1) (pteNew f3 (PRESENT ||| WRITABLE)))
        (.inMem f3) (page_table_index a 0) (pteNew f PRESENT))
      (.inMem f2) (page_table_index (a + d) 1)) 1 = .frame (.size4Kb f3) := by
    have : readEntry
        (writeEntry
          (writeEntry
            (writeEntry
              (writeEntry st .root (page_table_index a 3) (pteNew f1 (PRESENT ||| WRITABLE)))
              (.inMem f1) (page_table_index a 2) (pteNew f2 (PRESENT ||| WRITABLE)))
            (.inMem f2) (page_table_index a 1) (pteNew f3 (PRESENT ||| WRITABLE)))
          (.inMem f3) (page_table_index a 0) (pteNew f PRESENT))
        (.inMem f2) (page_table_index (a + d) 1) = pteNew f3 (PRESENT ||| WRITABLE) := by
      simp [readEntry, writeEntry, upd, page_table_index_add ha hd, Ne.symm h12, h23]
    rw [this]; exact hd1
  have t0 : pteFrame (readEntry
      (writeEntry
        (writeEntry
          (writeEntry
            (writeEntry st .root (page_table_index a 3) (pteNew f1 (PRESENT ||| WRITABLE)))
            (.inMem f1) (page_table_index a 2) (pteNew f2 (PRESENT ||| WRITABLE)))
          (.inMem f2) (page_table_index a 1) (pteNew f3 (PRESENT ||| WRITABLE)))
        (.inMem f3) (page_table_index a 0) (pteNew f PRESENT))
      (.inMem f3) (page_table_index (a + d) 0)) 0 = .frame (.size4Kb f) := by
    have : readEntry
        (writeEntry
          (writeEntry
            (writeEntry
              (writeEntry st .root (page_table_index a 3) (pteNew f1 (PRESENT ||| WRITABLE)))
              (.inMem f1) (page_table_index a 2) (pteNew f2 (PRESENT ||| WRITABLE)))
            (.inMem f2) (page_table_index a 1) (pteNew f3 (PRESENT ||| WRITABLE)))
          (.inMem f3) (page_table_index a 0) (pteNew f PRESENT))
        (.inMem f3) (page_table_index (a + d) 0) = pteNew f PRESENT := by
      simp [readEntry, writeEntry, upd, page_table_index_add ha hd]
    rw [this]; exact hd0
  have hwalk := (translateFrom_4k_step _ (a + d) TableRef.root f1 2 t3).trans
    ((translateFrom_4k_step _ (a + d) (.inMem f1) f2 1 t2).trans
      ((translateFrom_4k_step _ (a + d) (.inMem f2) f3 0 t1).trans
        (translateFrom_4k_leaf _ (a + d) (.inMem f3) f t0)))
  show translateFrom _ (a + d) TableRef.root 3 = _
  rw [hwalk, page_offset_add ha hd]

/-- Witness for the amended claim C2: the zero state with frames 0x1000,
0x2000, 0x3000 and target frame 0x5000 satisfies every hypothesis, and
mapping page 0 then translating address 5 yields 0x5000 + 5. -/
theorem map_page_fresh_then_translate_witness :
    (0 : Nat) % 4096 = 0 ∧ (5 : Nat) < 4096 ∧
    hasFlag (zeroState.root (page_table_index 0 3)) PRESENT = false ∧
    (∀ j, zeroState.mem 0x1000 j = 0) ∧
    ((map_page zeroState [0x1000, 0x2000, 0x3000] 0 (pteNew 0x5000 PRESENT)).1 = .ok ∧
      translate_addr
        (map_page zeroState [0x1000, 0x2000, 0x3000] 0 (pteNew 0x5000 PRESENT)).2.1
        (virtAdd 0 5) = .mapped (0x5000 + 5)) :=
  ⟨by decide, by decide, by decide, fun _ => rfl,
   map_page_fresh_then_translate zeroState [] 0 0x5000 0x1000 0x2000 0x3000 5
     (by decide) (by decide) (by decide) (by decide) (fun _ => rfl) (fun _ => rfl)
     (fun _ => rfl) (by decide) (by decide) (by decide) (by decide) (by decide)
     (by decide) (by decide)⟩
